import Mathlib

/-
Shallow embedding of the StockFlow API backend's order and inventory
transaction engines (src/controllers/orderController.ts and
src/controllers/inventoryController.ts, plus the socket notifier in
src/utils/socket.ts and the product price update path of
src/controllers/productController.ts).

Modelling conventions:
- JavaScript numbers are modelled as exact integers (Int): quantities
  and stock levels are integers by the zod schemas, and prices/totals are
  modelled at integer precision so that every definition stays
  kernel-executable; no claim depends on fractional prices, and the
  arithmetic structure (sum of price times quantity) is unchanged.
- Entity ids are opaque strings (Prisma uuids); the zod `.uuid()` format
  check is not modelled, ids are compared only for equality.  Order ids
  are modelled as a counter in the state (Prisma assigns a fresh unique
  id at insert time).
- The database is a State record of entity lists.  Prisma's primary-key
  uniqueness is a hypothesis `(st.products.map (fun p => p.id)).Nodup`
  where a proof needs it.
- Each controller is a pure function from (state, authenticated user,
  parsed request) to (HTTP-shaped response, committed state).  An early
  `return res.status(...)` is an error constructor paired with the
  unchanged state; a Prisma `$transaction` whose body throws is a
  rollback, i.e. the unchanged state with a 500 response.
- zod schema validation is modelled partly by the Lean types (shape,
  enums) and partly by an explicit boolean check (array nonempty,
  positive integer quantities).
-/

inductive OrderStatus
  | PENDING
  | COMPLETED
  | CANCELLED
deriving DecidableEq, Repr

inductive AdjType
  | IN
  | OUT
deriving DecidableEq, Repr

structure Product where
  id : String
  name : String
  sku : String
  description : Option String
  price : Int
  stockLevel : Int
  lowStockThreshold : Int
deriving DecidableEq, Repr

structure InventoryAdjustment where
  productId : String
  userId : String
  quantity : Int
  type : AdjType
  reason : Option String
deriving DecidableEq, Repr

structure Order where
  id : Nat
  userId : String
  status : OrderStatus
  totalAmount : Int
deriving DecidableEq, Repr

structure OrderItemRow where
  orderId : Nat
  productId : String
  quantity : Int
  priceAtTime : Int
deriving DecidableEq, Repr

structure State where
  products : List Product
  orders : List Order
  orderItems : List OrderItemRow
  adjustments : List InventoryAdjustment
  nextOrderId : Nat
deriving DecidableEq, Repr

/-- Parsed request body of POST /inventory/adjustments
(createAdjustmentSchema: productId uuid, quantity int, type IN|OUT,
reason optional). -/
structure AdjustmentReq where
  productId : String
  quantity : Int
  type : AdjType
  reason : Option String
deriving DecidableEq, Repr

/-- Responses of createAdjustment, one constructor per `res.status(...)`
site of the controller. -/
inductive AdjustmentRes
  | validationError (error : String)
  | notFound (error : String)
  | insufficientStock (currentStock : Int) (requested : Int)
  | created (adjustment : InventoryAdjustment) (newStockLevel : Int)
deriving DecidableEq, Repr

def AdjustmentRes.statusCode : AdjustmentRes → Nat
  | .validationError _ => 400
  | .notFound _ => 404
  | .insufficientStock _ _ => 400
  | .created _ _ => 201

/-- Embedding of createAdjustment (inventoryController.ts).  Control flow
follows the source exactly: product lookup first (404 when absent), then
the type/sign validation, then the prospective stock check, then the
transaction that inserts the adjustment row and writes the new stock
level. -/
def createAdjustment (st : State) (userId : String) (req : AdjustmentReq) :
    AdjustmentRes × State :=
  match st.products.find? (fun p => p.id == req.productId) with
  | none => (.notFound "Product not found", st)
  | some product =>
    if req.type = AdjType.IN ∧ req.quantity ≤ 0 then
      (.validationError "IN adjustments must have positive quantity ", st)
    else if req.type = AdjType.OUT ∧ 0 ≤ req.quantity then
      (.validationError "OUT adjustments must have negative quantity", st)
    else
      let newStockLevel := product.stockLevel + req.quantity
      if newStockLevel < 0 then
        (.insufficientStock product.stockLevel req.quantity.natAbs, st)
      else
        let adj : InventoryAdjustment :=
          { productId := req.productId, userId := userId,
            quantity := req.quantity, type := req.type, reason := req.reason }
        (.created adj newStockLevel,
          { st with
            products := st.products.map (fun p =>
              if p.id == req.productId then { p with stockLevel := newStockLevel } else p),
            adjustments := st.adjustments ++ [adj] })

/-- Discriminator for the validationError constructor (used to state that
a response is not a validation failure). -/
def AdjustmentRes.isValidationError : AdjustmentRes → Bool
  | .validationError _ => true
  | _ => false

/-- One line item of a POST /orders request (orderItemSchema: productId
uuid, quantity positive int). -/
structure OrderItemReq where
  productId : String
  quantity : Int
deriving DecidableEq, Repr

/-- Parsed request body of POST /orders (createOrderSchema: nonempty item
array, optional initial status). -/
structure CreateOrderReq where
  items : List OrderItemReq
  status : Option OrderStatus
deriving DecidableEq, Repr

/-- The zod checks that are not already enforced by the Lean types:
items array has at least one element, every quantity is a positive
integer. -/
def validOrderReq (req : CreateOrderReq) : Bool :=
  !req.items.isEmpty && req.items.all (fun i => 0 < i.quantity)

/-- One row of the order's line-item payload, as computed in step 3 of
createOrder (orderItemsData). -/
structure OrderItemData where
  productId : String
  quantity : Int
  priceAtTime : Int
deriving DecidableEq, Repr

/-- Responses of createOrder, one constructor per `res.status(...)` site.
internalError is the catch-all 500 (an exception thrown inside the
handler, e.g. a failed Prisma update rolling back the transaction). -/
inductive CreateOrderRes
  | validationError
  | notFound (error : String)
  | insufficientStock (product : String) (available : Int) (requested : Int)
  | created (order : Order) (items : List OrderItemData)
  | internalError
deriving DecidableEq, Repr

def CreateOrderRes.statusCode : CreateOrderRes → Nat
  | .validationError => 400
  | .notFound _ => 404
  | .insufficientStock _ _ _ => 400
  | .created _ _ => 201
  | .internalError => 500

/-- One step of building the productQuantities Map: JS
`map.set(pid, (map.get(pid) || 0) + qty)` updates an existing key in
place and appends a fresh key at the end. -/
def addQty (acc : List (String × Int)) (item : OrderItemReq) : List (String × Int) :=
  if acc.any (fun e => e.1 == item.productId) then
    acc.map (fun e => if e.1 == item.productId then (e.1, e.2 + item.quantity) else e)
  else
    acc ++ [(item.productId, item.quantity)]

/-- Step 2 of createOrder: per-product aggregated quantities, as an
association list mirroring the iteration order of the JS Map. -/
def productQuantities (items : List OrderItemReq) : List (String × Int) :=
  items.foldl addQty []

/-- The stock-check loop of createOrder: iterate the aggregated
quantities in Map order; a product missing from the fetched list is
skipped (`if (!product) continue`); the first product whose stockLevel
is strictly below its aggregated quantity yields the 400 payload
(name, available, requested). -/
def findFirstInsufficient (products : List Product) :
    List (String × Int) → Option (String × Int × Int)
  | [] => none
  | (productId, totalQuantity) :: rest =>
    match products.find? (fun p => p.id == productId) with
    | none => findFirstInsufficient products rest
    | some product =>
      if product.stockLevel < totalQuantity then
        some (product.name, product.stockLevel, totalQuantity)
      else
        findFirstInsufficient products rest

/-- Step 3 of createOrder: walk the original line items once, capturing
priceAtTime from the fetched product and accumulating totalAmount in the
same pass.  The source's non-null assertion on `products.find(...)`
would throw on a miss (caught as a 500); here that is the none case. -/
def buildItems (products : List Product) :
    List OrderItemReq → Option (List OrderItemData × Int)
  | [] => some ([], 0)
  | item :: rest =>
    match products.find? (fun p => p.id == item.productId) with
    | none => none
    | some product =>
      match buildItems products rest with
      | none => none
      | some (ds, total) =>
        some ({ productId := item.productId, quantity := item.quantity,
                priceAtTime := product.price } :: ds,
              product.price * item.quantity + total)

/-- One `tx.product.update({where: {id}, data: {stockLevel: {decrement}}})`
inside the transaction: Prisma throws (rolling the transaction back) when
no row matches, hence the none case. -/
def applyLine (ps : List Product) (item : OrderItemReq) : Option (List Product) :=
  if ps.any (fun p => p.id == item.productId) then
    some (ps.map (fun p =>
      if p.id == item.productId then
        { p with stockLevel := p.stockLevel - item.quantity }
      else p))
  else
    none

/-- The per-line stock decrement loop of the createOrder transaction. -/
def applyLines (ps : List Product) : List OrderItemReq → Option (List Product)
  | [] => some ps
  | item :: rest =>
    match applyLine ps item with
    | none => none
    | some ps2 => applyLines ps2 rest

/-- The inventoryAdjustment rows inserted by the createOrder transaction:
one per original line item, quantity negated, type OUT, reason
referencing the freshly assigned order id. -/
def orderAdjustments (items : List OrderItemReq) (userId : String) (orderId : Nat) :
    List InventoryAdjustment :=
  items.map (fun item =>
    { productId := item.productId, userId := userId,
      quantity := -item.quantity, type := AdjType.OUT,
      reason := some ("Order " ++ toString orderId) })

/-- Embedding of createOrder (orderController.ts).  Stages in source
order: zod parse; dedup ids and bulk-fetch the referenced products with a
length check (404); aggregated stock check (400); price/total pass; then
the transaction creating the Order row with its OrderItem rows and, per
original line, decrementing stock and inserting an adjustment row. -/
def createOrder (st : State) (userId : String) (req : CreateOrderReq) :
    CreateOrderRes × State :=
  if !validOrderReq req then (.validationError, st)
  else
    let uniqueProductIds := (req.items.map (fun i => i.productId)).dedup
    let products := st.products.filter (fun p => decide (p.id ∈ uniqueProductIds))
    if products.length ≠ uniqueProductIds.length then
      (.notFound "One or more products not found", st)
    else
      match findFirstInsufficient products (productQuantities req.items) with
      | some (productName, available, requested) =>
        (.insufficientStock productName available requested, st)
      | none =>
        match buildItems products req.items with
        | none => (.internalError, st)
        | some (orderItemsData, totalAmount) =>
          match applyLines st.products req.items with
          | none => (.internalError, st)
          | some newProducts =>
            let oid := st.nextOrderId
            let order : Order :=
              { id := oid, userId := userId,
                status := req.status.getD OrderStatus.PENDING,
                totalAmount := totalAmount }
            (.created order orderItemsData,
              { products := newProducts,
                orders := st.orders ++ [order],
                orderItems := st.orderItems ++ orderItemsData.map (fun d =>
                  { orderId := oid, productId := d.productId,
                    quantity := d.quantity, priceAtTime := d.priceAtTime }),
                adjustments := st.adjustments ++ orderAdjustments req.items userId oid,
                nextOrderId := oid + 1 })

/-- Payload of the order:created socket event (the fields of the emit in
createOrder that the model tracks; userName and timestamp are outside
the model). -/
structure OrderCreatedEvent where
  orderId : Nat
  userId : String
  totalAmount : Int
  itemCount : Nat
  status : OrderStatus
deriving DecidableEq, Repr

/-- Payload of the stock:updated socket event emitted by
createAdjustment. -/
structure StockUpdatedEvent where
  productId : String
  oldStock : Int
  newStock : Int
  change : Int
  type : AdjType
  reason : Option String
deriving DecidableEq, Repr

/-- createOrder followed by the post-commit notification block.
`socketReady` models whether initializeSocket ran: when it did not, the
`getIO()` call inside the try block throws, the catch logs and swallows
the error, and no event is emitted; the 201 response is sent either
way. -/
def createOrderAndNotify (socketReady : Bool) (st : State) (userId : String)
    (req : CreateOrderReq) : (CreateOrderRes × State) × List OrderCreatedEvent :=
  let result := createOrder st userId req
  match result.1 with
  | .created order items =>
    (result,
      if socketReady then
        [{ orderId := order.id, userId := order.userId,
           totalAmount := order.totalAmount, itemCount := items.length,
           status := order.status }]
      else [])
  | _ => (result, [])

/-- createAdjustment followed by its post-commit notification block,
with the same try/catch-around-getIO structure as createOrderAndNotify. -/
def createAdjustmentAndNotify (socketReady : Bool) (st : State) (userId : String)
    (req : AdjustmentReq) : (AdjustmentRes × State) × List StockUpdatedEvent :=
  let result := createAdjustment st userId req
  match result.1 with
  | .created adj newStockLevel =>
    (result,
      if socketReady then
        [{ productId := req.productId,
           oldStock := newStockLevel - adj.quantity, newStock := newStockLevel,
           change := req.quantity, type := req.type, reason := req.reason }]
      else [])
  | _ => (result, [])

inductive UpdateStatusRes
  | notFound (error : String)
  | ok (order : Order)
deriving DecidableEq, Repr

/-- Embedding of updateOrderStatus (orderController.ts): find the order
(404 when absent), then `prisma.order.update` writing only the status
field, returning the updated row. -/
def updateOrderStatus (st : State) (orderId : Nat) (newStatus : OrderStatus) :
    UpdateStatusRes × State :=
  match st.orders.find? (fun o => o.id == orderId) with
  | none => (.notFound "Order not found", st)
  | some order =>
    (.ok { order with status := newStatus },
      { st with orders := st.orders.map (fun o =>
          if o.id == orderId then { o with status := newStatus } else o) })

/-- One item of a getOrderById response: the OrderItem row joined with
the referenced product's current name/sku/price (`include: {product:
{select: {name, sku, price}}}`); none when the product row is gone. -/
structure OrderItemView where
  productId : String
  quantity : Int
  priceAtTime : Int
  productInfo : Option (String × String × Int)
deriving DecidableEq, Repr

/-- Embedding of getOrderById (orderController.ts): find the order (404
when absent → none) and return it with its OrderItem rows joined with
current product data. -/
def getOrderById (st : State) (orderId : Nat) : Option (Order × List OrderItemView) :=
  match st.orders.find? (fun o => o.id == orderId) with
  | none => none
  | some order =>
    some (order, (st.orderItems.filter (fun r => r.orderId == orderId)).map (fun r =>
      { productId := r.productId, quantity := r.quantity,
        priceAtTime := r.priceAtTime,
        productInfo := (st.products.find? (fun p => p.id == r.productId)).map
          (fun p => (p.name, p.sku, p.price)) }))

/-- The price-field path of updateProduct (productController.ts): find
the product (error when absent, modelled as the unchanged state) and
update its price.  Used to show committed orders do not drift when a
referenced product's price later changes. -/
def updateProductPrice (st : State) (productId : String) (newPrice : Int) : State :=
  match st.products.find? (fun p => p.id == productId) with
  | none => st
  | some _ =>
    { st with products := st.products.map (fun p =>
        if p.id == productId then { p with price := newPrice } else p) }

/-- The two core mutating operations, for stating
state invariants over arbitrary sequential executions. -/
inductive Op
  | placeOrder (userId : String) (req : CreateOrderReq)
  | adjust (userId : String) (req : AdjustmentReq)

/-- Committed state after one operation (the response is dropped). -/
def runOp (st : State) : Op → State
  | .placeOrder userId req => (createOrder st userId req).2
  | .adjust userId req => (createAdjustment st userId req).2

/-- Committed state after a sequence of operations run sequentially. -/
def runOps (st : State) (ops : List Op) : State :=
  ops.foldl runOp st

/-- Total quantity requested for one product across all line items of a
request (what the aggregated stock check compares against stockLevel). -/
def sumQty (productId : String) (items : List OrderItemReq) : Int :=
  ((items.filter (fun i => i.productId == productId)).map (fun i => i.quantity)).sum

/-- Every product's stock level is non-negative. -/
def stocksNonneg (st : State) : Prop :=
  ∀ p ∈ st.products, 0 ≤ p.stockLevel

/-- Product ids are pairwise distinct (Prisma primary-key uniqueness). -/
def productIdsNodup (st : State) : Prop :=
  (st.products.map (fun p => p.id)).Nodup

def emptyState : State :=
  { products := [], orders := [], orderItems := [], adjustments := [], nextOrderId := 1 }

def demoProduct : Product :=
  { id := "p1", name := "Widget", sku := "W1", description := none,
    price := 5, stockLevel := 10, lowStockThreshold := 2 }

def demoState : State :=
  { products := [demoProduct], orders := [], orderItems := [], adjustments := [],
    nextOrderId := 1 }

def demoOrderReq : CreateOrderReq :=
  { items := [{ productId := "p1", quantity := 4 }, { productId := "p1", quantity := 3 }],
    status := none }

/-- C5 (counterexample): a sign/type-mismatched adjustment (type=IN,
quantity=-5) whose product does not exist is answered with the 404
product lookup failure, not with the validation error: the lookup
precedes the sign validation in createAdjustment, contradicting the
claim that the mismatch is reported even when the product is missing. -/
theorem createAdjustment_missing_product_mismatch_is_404 :
    (createAdjustment emptyState "u1"
        { productId := "p1", quantity := -5, type := AdjType.IN, reason := none }).1
      = AdjustmentRes.notFound "Product not found" ∧
    AdjustmentRes.isValidationError
      (createAdjustment emptyState "u1"
        { productId := "p1", quantity := -5, type := AdjType.IN, reason := none }).1
      = false ∧
    AdjustmentRes.statusCode
      (createAdjustment emptyState "u1"
        { productId := "p1", quantity := -5, type := AdjType.IN, reason := none }).1
      = 404 := by
  decide

/-- C5 (amended): when the referenced product exists, an adjustment whose
quantity sign contradicts its type (IN with quantity ≤ 0, or OUT with
quantity ≥ 0) is rejected as a 400 validation failure and no state is
touched; the product lookup, however, happens first, so a missing
product is reported as 404 instead. -/
theorem createAdjustment_sign_mismatch_rejected (st : State) (userId : String)
    (req : AdjustmentReq) (p : Product)
    (hfind : st.products.find? (fun q => q.id == req.productId) = some p)
    (hmismatch : (req.type = AdjType.IN ∧ req.quantity ≤ 0) ∨
                 (req.type = AdjType.OUT ∧ 0 ≤ req.quantity)) :
    (∃ msg, (createAdjustment st userId req).1 = AdjustmentRes.validationError msg) ∧
    AdjustmentRes.statusCode (createAdjustment st userId req).1 = 400 ∧
    (createAdjustment st userId req).2 = st := by
  rcases hmismatch with ⟨ht, hq⟩ | ⟨ht, hq⟩
  · simp only [createAdjustment, hfind, if_pos (And.intro ht hq)]
    exact ⟨⟨_, rfl⟩, by trivial, by trivial⟩
  · have h1 : ¬(req.type = AdjType.IN ∧ req.quantity ≤ 0) := by
      rintro ⟨h, -⟩
      rw [ht] at h
      exact AdjType.noConfusion h
    simp only [createAdjustment, hfind, if_neg h1, if_pos (And.intro ht hq)]
    exact ⟨⟨_, rfl⟩, by trivial, by trivial⟩

/-- Closed instance of createAdjustment_sign_mismatch_rejected at a
concrete state (product p1 present, type=IN, quantity=-5). -/
theorem createAdjustment_sign_mismatch_rejected_witness :
    (∃ msg, (createAdjustment demoState "u1"
        { productId := "p1", quantity := -5, type := AdjType.IN, reason := none }).1
      = AdjustmentRes.validationError msg) ∧
    AdjustmentRes.statusCode (createAdjustment demoState "u1"
        { productId := "p1", quantity := -5, type := AdjType.IN, reason := none }).1 = 400 ∧
    (createAdjustment demoState "u1"
        { productId := "p1", quantity := -5, type := AdjType.IN, reason := none }).2
      = demoState :=
  createAdjustment_sign_mismatch_rejected demoState "u1"
    { productId := "p1", quantity := -5, type := AdjType.IN, reason := none }
    demoProduct (by decide) (Or.inl ⟨rfl, by decide⟩)

/-- C7: a valid adjustment (sign matching type) on an existing product
whose prospective stock level is non-negative commits: the 201 response
carries the created adjustment row (with the signed quantity as given)
and newStockLevel = previous stockLevel + signed quantity; exactly that
one adjustment row is appended, and the product's stored stockLevel
becomes the returned value. -/
theorem createAdjustment_success (st : State) (userId : String)
    (req : AdjustmentReq) (p : Product)
    (hfind : st.products.find? (fun q => q.id == req.productId) = some p)
    (hsign : (req.type = AdjType.IN → 0 < req.quantity) ∧
             (req.type = AdjType.OUT → req.quantity < 0))
    (hstock : 0 ≤ p.stockLevel + req.quantity) :
    (createAdjustment st userId req).1
      = AdjustmentRes.created
          { productId := req.productId, userId := userId,
            quantity := req.quantity, type := req.type, reason := req.reason }
          (p.stockLevel + req.quantity) ∧
    (createAdjustment st userId req).2.adjustments
      = st.adjustments ++
          [{ productId := req.productId, userId := userId,
             quantity := req.quantity, type := req.type, reason := req.reason }] ∧
    (createAdjustment st userId req).2.products
      = st.products.map (fun q =>
          if q.id == req.productId then
            { q with stockLevel := p.stockLevel + req.quantity }
          else q) := by
  have h1 : ¬(req.type = AdjType.IN ∧ req.quantity ≤ 0) := by
    rintro ⟨ht, hq⟩
    exact absurd (hsign.1 ht) (not_lt.mpr hq)
  have h2 : ¬(req.type = AdjType.OUT ∧ 0 ≤ req.quantity) := by
    rintro ⟨ht, hq⟩
    exact absurd (hsign.2 ht) (not_lt.mpr hq)
  have h3 : ¬(p.stockLevel + req.quantity < 0) := not_lt.mpr hstock
  simp only [createAdjustment, hfind, if_neg h1, if_neg h2, if_neg h3]
  refine ⟨?_, ?_, ?_⟩ <;> trivial

/-- Closed instance of createAdjustment_success at the spec's scenario:
quantity=20, type=IN, reason="restock" on stockLevel=3 yields
newStockLevel=23 and a single adjustment record with quantity=+20. -/
theorem createAdjustment_success_witness :
    (createAdjustment
        { demoState with products := [{ demoProduct with stockLevel := 3 }] } "u1"
        { productId := "p1", quantity := 20, type := AdjType.IN, reason := some "restock" }).1
      = AdjustmentRes.created
          { productId := "p1", userId := "u1", quantity := 20,
            type := AdjType.IN, reason := some "restock" } 23 ∧
    (createAdjustment
        { demoState with products := [{ demoProduct with stockLevel := 3 }] } "u1"
        { productId := "p1", quantity := 20, type := AdjType.IN, reason := some "restock" }).2.adjustments
      = [{ productId := "p1", userId := "u1", quantity := 20,
           type := AdjType.IN, reason := some "restock" }] ∧
    (createAdjustment
        { demoState with products := [{ demoProduct with stockLevel := 3 }] } "u1"
        { productId := "p1", quantity := 20, type := AdjType.IN, reason := some "restock" }).2.products
      = [{ demoProduct with stockLevel := 23 }] := by
  have h := createAdjustment_success
    { demoState with products := [{ demoProduct with stockLevel := 3 }] } "u1"
    { productId := "p1", quantity := 20, type := AdjType.IN, reason := some "restock" }
    { demoProduct with stockLevel := 3 }
    (by decide) (by decide) (by decide)
  refine ⟨h.1, ?_, ?_⟩
  · rw [h.2.1]; decide
  · rw [h.2.2]; decide

/-- C8: the post-commit socket emission sits in a try/catch, so whether
the notifier is initialized (socketReady) or getIO throws has no effect
on the HTTP-visible outcome: the response/state pair of the full handler
equals the committed result of the bare transaction for both values of
socketReady, for orders and adjustments alike. -/
theorem notifier_failure_invisible (st : State) (userId : String)
    (oreq : CreateOrderReq) (areq : AdjustmentReq) (socketReady : Bool) :
    (createOrderAndNotify socketReady st userId oreq).1 = createOrder st userId oreq ∧
    (createAdjustmentAndNotify socketReady st userId areq).1 = createAdjustment st userId areq := by
  constructor
  · simp only [createOrderAndNotify]
    cases h : (createOrder st userId oreq).1 <;> simp [h]
  · simp only [createAdjustmentAndNotify]
    cases h : (createAdjustment st userId areq).1 <;> simp [h]

/-- C4: with product p1 at stockLevel=10 and an order of two lines
{p1: 4} and {p1: 3}, the order is created (stock check passes against
the aggregate 7), p1 ends at stockLevel 3, and exactly two OUT
adjustment rows of -4 and -3 are appended, each with reason "Order 1"
(the new order's id); with stockLevel=5 instead, the aggregated check
rejects the same request with available=5, requested=7, showing the
check compares the per-product aggregate, not each line. -/
theorem createOrder_duplicate_lines_scenario :
    (createOrder demoState "u1" demoOrderReq).1
      = CreateOrderRes.created
          { id := 1, userId := "u1", status := OrderStatus.PENDING, totalAmount := 35 }
          [{ productId := "p1", quantity := 4, priceAtTime := 5 },
           { productId := "p1", quantity := 3, priceAtTime := 5 }] ∧
    (createOrder demoState "u1" demoOrderReq).2.products
      = [{ demoProduct with stockLevel := 3 }] ∧
    (createOrder demoState "u1" demoOrderReq).2.adjustments
      = [{ productId := "p1", userId := "u1", quantity := -4,
           type := AdjType.OUT, reason := some "Order 1" },
         { productId := "p1", userId := "u1", quantity := -3,
           type := AdjType.OUT, reason := some "Order 1" }] ∧
    (createOrder { demoState with products := [{ demoProduct with stockLevel := 5 }] }
        "u1" demoOrderReq).1
      = CreateOrderRes.insufficientStock "Widget" 5 7 := by
  decide

/-- The single price/total pass: the accumulated total returned by
buildItems is exactly the sum of priceAtTime × quantity over the line
rows it builds. -/
lemma buildItems_total (products : List Product) (items : List OrderItemReq) :
    ∀ ds t, buildItems products items = some (ds, t) →
      t = (ds.map (fun d => d.priceAtTime * d.quantity)).sum := by
  induction items with
  | nil =>
    intro ds t h
    simp only [buildItems, Option.some.injEq, Prod.mk.injEq] at h
    rw [← h.1, ← h.2]
    simp
  | cons item rest ih =>
    intro ds t h
    simp only [buildItems] at h
    cases hf : products.find? (fun p => p.id == item.productId) with
    | none => rw [hf] at h; simp at h
    | some p =>
      rw [hf] at h
      cases hb : buildItems products rest with
      | none => rw [hb] at h; simp at h
      | some r =>
        obtain ⟨ds', t'⟩ := r
        rw [hb] at h
        simp only [Option.some.injEq, Prod.mk.injEq] at h
        rw [← h.1, ← h.2]
        simp only [List.map_cons, List.sum_cons]
        rw [ih ds' t' hb]


/-- C1: whenever createOrder commits (201 created), the Order's
totalAmount equals the sum over all line items of
priceAtTime × quantity, where priceAtTime was captured from the product
at resolution time, and the committed OrderItem rows carry exactly the
priceAtTime and quantity values of those line items. -/
theorem createOrder_totalAmount_eq_sum (st : State) (userId : String)
    (req : CreateOrderReq) (order : Order) (items : List OrderItemData) (st' : State)
    (h : createOrder st userId req = (CreateOrderRes.created order items, st')) :
    order.totalAmount = (items.map (fun d => d.priceAtTime * d.quantity)).sum ∧
    st'.orderItems = st.orderItems ++ items.map (fun d =>
      { orderId := order.id, productId := d.productId,
        quantity := d.quantity, priceAtTime := d.priceAtTime }) := by
  unfold createOrder at h
  simp only [] at h
  repeat' split at h
  all_goals try (exfalso; revert h; simp; done)
  simp only [Prod.mk.injEq, CreateOrderRes.created.injEq] at h
  obtain ⟨⟨horder, hitems⟩, hst⟩ := h
  subst hitems
  subst horder
  subst hst
  exact ⟨buildItems_total _ _ _ _ (by assumption), rfl⟩

def demoOrder : Order :=
  { id := 1, userId := "u1", status := OrderStatus.PENDING, totalAmount := 35 }

def demoItemsData : List OrderItemData :=
  [{ productId := "p1", quantity := 4, priceAtTime := 5 },
   { productId := "p1", quantity := 3, priceAtTime := 5 }]

def demoCommittedState : State :=
  { products := [{ demoProduct with stockLevel := 3 }],
    orders := [demoOrder],
    orderItems := [{ orderId := 1, productId := "p1", quantity := 4, priceAtTime := 5 },
                   { orderId := 1, productId := "p1", quantity := 3, priceAtTime := 5 }],
    adjustments := [{ productId := "p1", userId := "u1", quantity := -4,
                      type := AdjType.OUT, reason := some "Order 1" },
                    { productId := "p1", userId := "u1", quantity := -3,
                      type := AdjType.OUT, reason := some "Order 1" }],
    nextOrderId := 2 }

/-- Closed instance of createOrder_totalAmount_eq_sum at the demo order
(two lines of product p1 at price 5, quantities 4 and 3: total 35). -/
theorem createOrder_totalAmount_eq_sum_witness :
    demoOrder.totalAmount = (demoItemsData.map (fun d => d.priceAtTime * d.quantity)).sum ∧
    demoCommittedState.orderItems = demoState.orderItems ++ demoItemsData.map (fun d =>
      { orderId := demoOrder.id, productId := d.productId,
        quantity := d.quantity, priceAtTime := d.priceAtTime }) :=
  createOrder_totalAmount_eq_sum demoState "u1" demoOrderReq demoOrder demoItemsData
    demoCommittedState (by decide)

/-- updateProductPrice touches only the products table. -/
lemma updateProductPrice_frame (st : State) (pid : String) (np : Int) :
    (updateProductPrice st pid np).orders = st.orders ∧
    (updateProductPrice st pid np).orderItems = st.orderItems := by
  unfold updateProductPrice
  split <;> exact ⟨rfl, rfl⟩

/-- updateOrderStatus touches only the orders table. -/
lemma updateOrderStatus_frame (st : State) (oid : Nat) (s : OrderStatus) :
    (updateOrderStatus st oid s).2.orderItems = st.orderItems ∧
    (updateOrderStatus st oid s).2.products = st.products := by
  unfold updateOrderStatus
  split <;> exact ⟨rfl, rfl⟩

/-- Rewriting one order's status leaves it findable by id, with only the
status field changed. -/
lemma find?_status_update (orders : List Order) (oid : Nat) (s : OrderStatus) (o : Order)
    (h : orders.find? (fun x => x.id == oid) = some o) :
    (orders.map (fun x => if x.id == oid then { x with status := s } else x)).find?
        (fun x => x.id == oid) = some { o with status := s } := by
  induction orders with
  | nil => simp at h
  | cons a rest ih =>
    by_cases ha : (a.id == oid) = true
    · rw [@List.find?_cons_of_pos Order (fun x => x.id == oid) a rest ha] at h
      injection h with h
      subst h
      simp only [List.map_cons, if_pos ha]
      exact @List.find?_cons_of_pos Order (fun x => x.id == oid) _ _ ha
    · rw [@List.find?_cons_of_neg Order (fun x => x.id == oid) a rest ha] at h
      simp only [List.map_cons, if_neg ha]
      rw [@List.find?_cons_of_neg Order (fun x => x.id == oid) _ _ ha]
      exact ih h

/-- C9: once an order is committed, its totalAmount and its item set
(productId, quantity, priceAtTime) are immutable: after any price change
to any product and any status update of the order, getOrderById still
returns the same id, userId and totalAmount (only status reflects the
explicit update) and the same item triples — the joined current product
price may drift, the captured priceAtTime does not. -/
theorem committed_order_immutable (st : State) (orderId : Nat)
    (o : Order) (views : List OrderItemView)
    (h : getOrderById st orderId = some (o, views))
    (pid : String) (newPrice : Int) (newStatus : OrderStatus) :
    ∃ o2 views2,
      getOrderById (updateOrderStatus (updateProductPrice st pid newPrice) orderId newStatus).2
          orderId = some (o2, views2) ∧
      o2.id = o.id ∧ o2.userId = o.userId ∧ o2.totalAmount = o.totalAmount ∧
      o2.status = newStatus ∧
      views2.map (fun v => (v.productId, v.quantity, v.priceAtTime))
        = views.map (fun v => (v.productId, v.quantity, v.priceAtTime)) := by
  unfold getOrderById at h
  cases hf : st.orders.find? (fun x => x.id == orderId) with
  | none => rw [hf] at h; simp at h
  | some o1 =>
    rw [hf] at h
    simp only [Option.some.injEq, Prod.mk.injEq] at h
    obtain ⟨ho1, hviews⟩ := h
    rw [ho1] at hf
    have hp := updateProductPrice_frame st pid newPrice
    set st1 := updateProductPrice st pid newPrice with hst1
    have hf1 : st1.orders.find? (fun x => x.id == orderId) = some o := by
      rw [hp.1, hf]
    have hs := updateOrderStatus_frame st1 orderId newStatus
    have hst2orders : (updateOrderStatus st1 orderId newStatus).2.orders
        = st1.orders.map (fun x => if x.id == orderId then { x with status := newStatus } else x) := by
      unfold updateOrderStatus
      rw [hf1]
    have hf2 : (updateOrderStatus st1 orderId newStatus).2.orders.find?
        (fun x => x.id == orderId) = some { o with status := newStatus } := by
      rw [hst2orders]
      exact find?_status_update st1.orders orderId newStatus o hf1
    refine ⟨{ o with status := newStatus },
      ((updateOrderStatus st1 orderId newStatus).2.orderItems.filter
          (fun r => r.orderId == orderId)).map (fun r =>
        { productId := r.productId, quantity := r.quantity, priceAtTime := r.priceAtTime,
          productInfo := ((updateOrderStatus st1 orderId newStatus).2.products.find?
              (fun p => p.id == r.productId)).map (fun p => (p.name, p.sku, p.price)) }),
      ?_, rfl, rfl, rfl, rfl, ?_⟩
    · unfold getOrderById
      rw [hf2]
    · rw [← hviews, hs.1, hp.2]
      simp only [List.map_map]
      rfl

def demoViews : List OrderItemView :=
  [{ productId := "p1", quantity := 4, priceAtTime := 5,
     productInfo := some ("Widget", "W1", 5) },
   { productId := "p1", quantity := 3, priceAtTime := 5,
     productInfo := some ("Widget", "W1", 5) }]

/-- Closed instance of committed_order_immutable: after a price change of
p1 to 99 and a status update to COMPLETED, order 1 still reads back with
totalAmount 35 and the same (productId, quantity, priceAtTime)
triples. -/
theorem committed_order_immutable_witness :
    ∃ o2 views2,
      getOrderById (updateOrderStatus (updateProductPrice demoCommittedState "p1" 99) 1
          OrderStatus.COMPLETED).2 1 = some (o2, views2) ∧
      o2.id = demoOrder.id ∧ o2.userId = demoOrder.userId ∧
      o2.totalAmount = demoOrder.totalAmount ∧
      o2.status = OrderStatus.COMPLETED ∧
      views2.map (fun v => (v.productId, v.quantity, v.priceAtTime))
        = demoViews.map (fun v => (v.productId, v.quantity, v.priceAtTime)) :=
  committed_order_immutable demoCommittedState 1 demoOrder demoViews (by decide)
    "p1" 99 OrderStatus.COMPLETED

lemma sumQty_nil (pid : String) : sumQty pid [] = 0 := rfl

lemma sumQty_cons (pid : String) (item : OrderItemReq) (rest : List OrderItemReq) :
    sumQty pid (item :: rest)
      = (if item.productId == pid then item.quantity else 0) + sumQty pid rest := by
  by_cases h : (item.productId == pid) = true
  · simp [sumQty, List.filter_cons, h]
  · simp [sumQty, List.filter_cons, h]

lemma sumQty_eq_zero_of_not_mem (pid : String) (items : List OrderItemReq)
    (h : pid ∉ items.map (fun i => i.productId)) : sumQty pid items = 0 := by
  induction items with
  | nil => rfl
  | cons item rest ih =>
    simp only [List.map_cons, List.mem_cons, not_or] at h
    rw [sumQty_cons, ih h.2]
    have hne : (item.productId == pid) = false := by
      simp only [beq_eq_false_iff_ne, ne_eq]
      exact fun hq => h.1 hq.symm
    rw [hne]
    simp

/-- Lookup in the aggregated-quantities association list (JS
`map.get(pid)`). -/
def lookupQ (pid : String) (l : List (String × Int)) : Option Int :=
  (l.find? (fun e => e.1 == pid)).map (fun e => e.2)

lemma find?_map_keyUpdate (k : String) (q : Int) (pid : String)
    (acc : List (String × Int)) :
    (acc.map (fun e => if e.1 == k then (e.1, e.2 + q) else e)).find?
        (fun e => e.1 == pid)
      = (acc.find? (fun e => e.1 == pid)).map
          (fun e => if e.1 == k then (e.1, e.2 + q) else e) := by
  induction acc with
  | nil => rfl
  | cons a rest ih =>
    have hkey : ((if a.1 == k then (a.1, a.2 + q) else a)).1 = a.1 := by
      by_cases hk : (a.1 == k) = true <;> simp [hk]
    simp only [List.map_cons, List.find?_cons, hkey]
    cases ha : (a.1 == pid) with
    | true => rfl
    | false => exact ih

lemma lookupQ_nil (pid : String) : lookupQ pid [] = none := rfl

lemma lookupQ_addQty (acc : List (String × Int)) (item : OrderItemReq) (pid : String) :
    lookupQ pid (addQty acc item)
      = if item.productId == pid then
          some ((lookupQ pid acc).getD 0 + item.quantity)
        else lookupQ pid acc := by
  unfold addQty
  by_cases hany : (acc.any (fun e => e.1 == item.productId)) = true
  · rw [if_pos hany]
    unfold lookupQ
    rw [find?_map_keyUpdate]
    cases hf : acc.find? (fun e => e.1 == pid) with
    | none =>
      by_cases hpk : (item.productId == pid) = true
      · exfalso
        rw [List.any_eq_true] at hany
        obtain ⟨e, he, hek⟩ := hany
        have hep : (e.1 == pid) = true := by
          rw [beq_iff_eq] at hek hpk ⊢
          rw [hek, hpk]
        have : (acc.find? (fun e => e.1 == pid)).isSome = true :=
          List.find?_isSome.mpr ⟨e, he, hep⟩
        rw [hf] at this
        simp at this
      · rw [if_neg hpk]
        simp
    | some e =>
      have he1 : (e.1 == pid) = true :=
        @List.find?_some (String × Int) (fun x => x.1 == pid) e acc hf
      by_cases hpk : (item.productId == pid) = true
      · have hek : (e.1 == item.productId) = true := by
          rw [beq_iff_eq] at he1 hpk ⊢
          rw [he1, hpk]
        rw [if_pos hpk]
        have hek2 : e.1 = item.productId := by simpa using hek
        simp [hf, hek2]
      · have hek : (e.1 == item.productId) = false := by
          rw [beq_iff_eq] at he1
          rw [beq_eq_false_iff_ne, he1]
          intro hc
          rw [beq_iff_eq] at hpk
          exact hpk hc.symm
        rw [if_neg hpk]
        have hek2 : ¬(e.1 = item.productId) := by simpa using hek
        simp [hf, hek2]
  · rw [if_neg hany]
    unfold lookupQ
    rw [List.find?_append]
    have hfn : acc.find? (fun e => e.1 == pid) = none ∨ (item.productId == pid) = false := by
      by_cases hpk : (item.productId == pid) = true
      · left
        cases hf : acc.find? (fun e => e.1 == pid) with
        | none => rfl
        | some e =>
          exfalso
          apply hany
          rw [List.any_eq_true]
          refine ⟨e, List.mem_of_find?_eq_some hf, ?_⟩
          have he1 : (e.1 == pid) = true :=
            @List.find?_some (String × Int) (fun x => x.1 == pid) e acc hf
          rw [beq_iff_eq] at he1 hpk ⊢
          rw [he1, hpk]
      · right
        simpa using hpk
    by_cases hpk : (item.productId == pid) = true
    · have hf : acc.find? (fun e => e.1 == pid) = none := by
        rcases hfn with h | h
        · exact h
        · rw [hpk] at h; exact absurd h (by simp)
      rw [hf, if_pos hpk]
      simp [List.find?_cons, hpk, lookupQ, hf]
    · rw [if_neg hpk]
      have : ([(item.productId, item.quantity)].find? (fun e => e.1 == pid)) = none := by
        simp [List.find?_cons, hpk]
      rw [this]
      simp

/-- Folding the aggregation over further items adds sumQty to an
already-present key's value. -/
lemma lookupQ_foldl_some (items : List OrderItemReq) :
    ∀ (acc : List (String × Int)) (pid : String) (v : Int),
      lookupQ pid acc = some v →
      lookupQ pid (items.foldl addQty acc) = some (v + sumQty pid items) := by
  induction items with
  | nil =>
    intro acc pid v h
    simpa [sumQty_nil] using h
  | cons item rest ih =>
    intro acc pid v h
    rw [List.foldl_cons]
    by_cases hpk : (item.productId == pid) = true
    · have h2 : lookupQ pid (addQty acc item) = some (v + item.quantity) := by
        rw [lookupQ_addQty, if_pos hpk, h]
        rfl
      rw [ih _ _ _ h2, sumQty_cons, if_pos hpk]
      rw [Int.add_assoc]
    · have h2 : lookupQ pid (addQty acc item) = some v := by
        rw [lookupQ_addQty, if_neg hpk, h]
      rw [ih _ _ _ h2, sumQty_cons, if_neg hpk, Int.zero_add]

/-- Folding the aggregation over items starting from an accumulator
without the key yields exactly sumQty when the key occurs, nothing
otherwise. -/
lemma lookupQ_foldl_none (items : List OrderItemReq) :
    ∀ (acc : List (String × Int)) (pid : String),
      lookupQ pid acc = none →
      lookupQ pid (items.foldl addQty acc)
        = if pid ∈ items.map (fun i => i.productId) then some (sumQty pid items)
          else none := by
  induction items with
  | nil =>
    intro acc pid h
    simpa using h
  | cons item rest ih =>
    intro acc pid h
    rw [List.foldl_cons]
    by_cases hpk : (item.productId == pid) = true
    · have hpid : pid = item.productId := by
        have h3 : item.productId = pid := by simpa using hpk
        exact h3.symm
      have h2 : lookupQ pid (addQty acc item) = some (0 + item.quantity) := by
        rw [lookupQ_addQty, if_pos hpk, h]
        rfl
      rw [lookupQ_foldl_some rest _ _ _ h2]
      have hmem : pid ∈ (item :: rest).map (fun i => i.productId) := by
        simp [hpid]
      rw [if_pos hmem, sumQty_cons, if_pos hpk, Int.zero_add]
    · have h2 : lookupQ pid (addQty acc item) = none := by
        rw [lookupQ_addQty, if_neg hpk, h]
      rw [ih _ _ h2]
      have hne : ¬(pid = item.productId) := by
        intro hc
        rw [beq_iff_eq] at hpk
        exact hpk hc.symm
      rw [sumQty_cons, if_neg hpk, Int.zero_add]
      simp only [List.map_cons, List.mem_cons]
      by_cases hm : pid ∈ rest.map (fun i => i.productId)
      · rw [if_pos hm, if_pos (Or.inr hm)]
      · rw [if_neg hm, if_neg (by rintro (hc | hc); exact hne hc; exact hm hc)]

/-- The aggregated Map built by createOrder maps a product id to the sum
of its requested quantities over all line items, and holds no other
keys. -/
lemma lookupQ_productQuantities (items : List OrderItemReq) (pid : String) :
    lookupQ pid (productQuantities items)
      = if pid ∈ items.map (fun i => i.productId) then some (sumQty pid items)
        else none :=
  lookupQ_foldl_none items [] pid rfl

/-- addQty preserves existing keys and appends a fresh key at the end
(JS Map insertion-order semantics). -/
lemma keys_addQty (acc : List (String × Int)) (item : OrderItemReq) :
    (addQty acc item).map (fun e => e.1)
      = if acc.any (fun e => e.1 == item.productId) then acc.map (fun e => e.1)
        else acc.map (fun e => e.1) ++ [item.productId] := by
  unfold addQty
  by_cases h : (acc.any (fun e => e.1 == item.productId)) = true
  · rw [if_pos h, if_pos h, List.map_map]
    apply List.map_congr_left
    intro e _
    by_cases hk : e.1 = item.productId <;> simp [hk]
  · rw [if_neg h, if_neg h, List.map_append]
    rfl

lemma mem_keys_addQty (acc : List (String × Int)) (item : OrderItemReq) (pid : String) :
    pid ∈ (addQty acc item).map (fun e => e.1)
      ↔ pid ∈ acc.map (fun e => e.1) ∨ pid = item.productId := by
  rw [keys_addQty]
  by_cases h : (acc.any (fun e => e.1 == item.productId)) = true
  · rw [if_pos h]
    constructor
    · exact Or.inl
    · rintro (hm | hc)
      · exact hm
      · rw [List.any_eq_true] at h
        obtain ⟨e, he, hek⟩ := h
        have he2 : e.1 = pid :=
          (show e.1 = item.productId from by simpa using hek).trans hc.symm
        exact he2 ▸ List.mem_map_of_mem _ he
  · rw [if_neg h]
    simp

lemma keysNodup_addQty (acc : List (String × Int)) (item : OrderItemReq)
    (h : (acc.map (fun e => e.1)).Nodup) :
    ((addQty acc item).map (fun e => e.1)).Nodup := by
  rw [keys_addQty]
  by_cases hany : (acc.any (fun e => e.1 == item.productId)) = true
  · rw [if_pos hany]
    exact h
  · rw [if_neg hany]
    rw [List.nodup_append]
    refine ⟨h, List.nodup_singleton _, ?_⟩
    intro k hk hk1
    simp only [List.mem_singleton] at hk1
    subst hk1
    apply hany
    rw [List.any_eq_true]
    rw [List.mem_map] at hk
    obtain ⟨e, he, hek⟩ := hk
    exact ⟨e, he, by simpa using hek⟩

lemma mem_keys_productQuantities (items : List OrderItemReq) (pid : String) :
    pid ∈ (productQuantities items).map (fun e => e.1)
      ↔ pid ∈ items.map (fun i => i.productId) := by
  have main : ∀ (acc : List (String × Int)),
      pid ∈ (items.foldl addQty acc).map (fun e => e.1)
        ↔ pid ∈ acc.map (fun e => e.1) ∨ pid ∈ items.map (fun i => i.productId) := by
    induction items with
    | nil => intro acc; simp
    | cons item rest ih =>
      intro acc
      rw [List.foldl_cons, ih (addQty acc item), mem_keys_addQty]
      simp only [List.map_cons, List.mem_cons]
      tauto
  simpa using main []

lemma keysNodup_productQuantities (items : List OrderItemReq) :
    ((productQuantities items).map (fun e => e.1)).Nodup := by
  have main : ∀ (acc : List (String × Int)), (acc.map (fun e => e.1)).Nodup →
      ((items.foldl addQty acc).map (fun e => e.1)).Nodup := by
    induction items with
    | nil => intro acc h; exact h
    | cons item rest ih =>
      intro acc h
      exact ih _ (keysNodup_addQty _ _ h)
  exact main [] (by simp)

/-- In an association list with pairwise-distinct keys, membership of a
pair pins down the find?-by-key result. -/
lemma find?_eq_of_mem_keysNodup :
    ∀ (l : List (String × Int)), ((l.map (fun e => e.1)).Nodup) →
      ∀ (pid : String) (q : Int), (pid, q) ∈ l →
        l.find? (fun e => e.1 == pid) = some (pid, q) := by
  intro l
  induction l with
  | nil => intro _ pid q hm; simp at hm
  | cons a rest ih =>
    intro hnd pid q hm
    simp only [List.map_cons, List.nodup_cons] at hnd
    rcases List.mem_cons.mp hm with rfl | hm2
    · simp [List.find?_cons]
    · have ha : (a.1 == pid) = false := by
        rw [beq_eq_false_iff_ne]
        intro hc
        apply hnd.1
        rw [hc]
        have : (pid, q).1 ∈ rest.map (fun e => e.1) := List.mem_map_of_mem _ hm2
        exact this
      simp only [List.find?_cons, ha]
      exact ih hnd.2 pid q hm2

/-- Every entry of productQuantities is (pid, sumQty pid items). -/
lemma eq_sumQty_of_mem_productQuantities (items : List OrderItemReq)
    (pid : String) (q : Int) (h : (pid, q) ∈ productQuantities items) :
    q = sumQty pid items := by
  have hf := find?_eq_of_mem_keysNodup (productQuantities items)
    (keysNodup_productQuantities items) pid q h
  have hl : lookupQ pid (productQuantities items) = some q := by
    unfold lookupQ
    rw [hf]
    rfl
  rw [lookupQ_productQuantities] at hl
  by_cases hm : pid ∈ items.map (fun i => i.productId)
  · rw [if_pos hm] at hl
    exact (Option.some.inj hl).symm
  · rw [if_neg hm] at hl
    exact absurd hl (by simp)

/-- Every requested product id appears in productQuantities with its
aggregated quantity. -/
lemma entry_mem_productQuantities (items : List OrderItemReq) (pid : String)
    (h : pid ∈ items.map (fun i => i.productId)) :
    (pid, sumQty pid items) ∈ productQuantities items := by
  have hl : lookupQ pid (productQuantities items) = some (sumQty pid items) := by
    rw [lookupQ_productQuantities, if_pos h]
  unfold lookupQ at hl
  cases hf : (productQuantities items).find? (fun e => e.1 == pid) with
  | none => rw [hf] at hl; simp at hl
  | some e =>
    rw [hf] at hl
    simp at hl
    have he1 : e.1 = pid := by
      have := @List.find?_some (String × Int) (fun x => x.1 == pid) e _ hf
      simpa using this
    have hmem := List.mem_of_find?_eq_some hf
    have hpe : (pid, sumQty pid items) = e := by
      cases e
      simp_all
    rw [hpe]
    exact hmem

/-- When the stock-check loop reports no violation, every aggregated
entry whose product is found has sufficient stock. -/
lemma findFirstInsufficient_none (products : List Product) :
    ∀ (agg : List (String × Int)), findFirstInsufficient products agg = none →
      ∀ pid q, (pid, q) ∈ agg →
        ∀ p, products.find? (fun x => x.id == pid) = some p →
          ¬(p.stockLevel < q) := by
  intro agg
  induction agg with
  | nil =>
    intro _ pid q hm
    simp at hm
  | cons e rest ih =>
    obtain ⟨epid, eqty⟩ := e
    intro h pid q hm p hf
    unfold findFirstInsufficient at h
    cases hfe : products.find? (fun x => x.id == epid) with
    | none =>
      rw [hfe] at h
      rcases List.mem_cons.mp hm with hc | hm2
      · have h1 : pid = epid := congrArg Prod.fst hc
        subst h1
        rw [hf] at hfe
        exact absurd hfe (by simp)
      · exact ih h pid q hm2 p hf
    | some product =>
      rw [hfe] at h
      have hifh : (if product.stockLevel < eqty
          then some (product.name, product.stockLevel, eqty)
          else findFirstInsufficient products rest)
            = (none : Option (String × Int × Int)) := h
      by_cases hlt : product.stockLevel < eqty
      · rw [if_pos hlt] at hifh
        exact absurd hifh (by simp)
      · rw [if_neg hlt] at hifh
        rcases List.mem_cons.mp hm with hc | hm2
        · have h1 : pid = epid := congrArg Prod.fst hc
          have h2 : q = eqty := congrArg Prod.snd hc
          subst h1
          rw [hf] at hfe
          injection hfe with hpe
          rw [h2, hpe]
          exact hlt
        · exact ih hifh pid q hm2 p hf

/-- When the stock-check loop reports a violation, the reported triple is
the first violating product's name, its stock level, and the aggregated
quantity of one of the entries, and the violation is genuine. -/
lemma findFirstInsufficient_some (products : List Product) :
    ∀ (agg : List (String × Int)) (nm : String) (avail reqd : Int),
      findFirstInsufficient products agg = some (nm, avail, reqd) →
      ∃ pid p, (pid, reqd) ∈ agg ∧
        products.find? (fun x => x.id == pid) = some p ∧
        nm = p.name ∧ avail = p.stockLevel ∧ p.stockLevel < reqd := by
  intro agg
  induction agg with
  | nil =>
    intro nm avail reqd h
    simp [findFirstInsufficient] at h
  | cons e rest ih =>
    obtain ⟨epid, eqty⟩ := e
    intro nm avail reqd h
    unfold findFirstInsufficient at h
    cases hfe : products.find? (fun x => x.id == epid) with
    | none =>
      rw [hfe] at h
      obtain ⟨pid, p, hm, hf, hn, ha, hlt⟩ := ih nm avail reqd h
      exact ⟨pid, p, List.mem_cons_of_mem _ hm, hf, hn, ha, hlt⟩
    | some product =>
      rw [hfe] at h
      have hifh : (if product.stockLevel < eqty
          then some (product.name, product.stockLevel, eqty)
          else findFirstInsufficient products rest)
            = some (nm, avail, reqd) := h
      by_cases hlt : product.stockLevel < eqty
      · rw [if_pos hlt] at hifh
        injection hifh with hifh
        have h1 : product.name = nm := congrArg Prod.fst hifh
        have h2 : product.stockLevel = avail := congrArg (fun x => x.2.1) hifh
        have h3 : eqty = reqd := congrArg (fun x => x.2.2) hifh
        subst h3
        exact ⟨epid, product, List.mem_cons_self _ _, hfe, h1.symm, h2.symm, hlt⟩
      · rw [if_neg hlt] at hifh
        obtain ⟨pid, p, hm, hf, hn, ha, hlt2⟩ := ih nm avail reqd hifh
        exact ⟨pid, p, List.mem_cons_of_mem _ hm, hf, hn, ha, hlt2⟩

/-- A successful per-line update subtracts the line quantity from the
matching product row. -/
lemma applyLine_some (ps : List Product) (item : OrderItemReq) (ps2 : List Product)
    (h : applyLine ps item = some ps2) :
    ps2 = ps.map (fun p => if p.id == item.productId
      then { p with stockLevel := p.stockLevel - item.quantity } else p) := by
  unfold applyLine at h
  by_cases hany : (ps.any (fun p => p.id == item.productId)) = true
  · rw [if_pos hany] at h
    exact (Option.some.inj h).symm
  · rw [if_neg hany] at h
    exact absurd h (by simp)

/-- A successful transaction decrement loop subtracts, for every product
row, the total quantity over all lines that reference it. -/
lemma applyLines_eq (items : List OrderItemReq) :
    ∀ (ps ps2 : List Product), applyLines ps items = some ps2 →
      ps2 = ps.map (fun p => { p with stockLevel := p.stockLevel - sumQty p.id items }) := by
  induction items with
  | nil =>
    intro ps ps2 h
    have h2 : ps = ps2 := Option.some.inj h
    rw [← h2]
    have hid : ∀ p : Product,
        ({ p with stockLevel := p.stockLevel - sumQty p.id [] }) = p := by
      intro p
      cases p
      simp [sumQty_nil]
    rw [List.map_congr_left (fun p _ => hid p)]
    simp
  | cons item rest ih =>
    intro ps ps2 h
    unfold applyLines at h
    cases hl : applyLine ps item with
    | none =>
      rw [hl] at h
      exact absurd h (by simp)
    | some ps1 =>
      rw [hl] at h
      have h2 := ih ps1 ps2 h
      rw [applyLine_some ps item ps1 hl] at h2
      rw [h2, List.map_map]
      apply List.map_congr_left
      intro p _
      by_cases hk : p.id = item.productId
      · have hk1 : (p.id == item.productId) = true := by simpa using hk
        have hk2 : (item.productId == p.id) = true := by simpa using hk.symm
        cases p
        simp only [Function.comp_apply, hk1, if_true]
        simp [sumQty_cons, hk2, Int.sub_sub]
      · have hk1 : (p.id == item.productId) = false := by simpa using hk
        have hk2 : (item.productId == p.id) = false := by
          simpa using fun hc => hk hc.symm
        cases p
        simp only [Function.comp_apply, hk1]
        simp [sumQty_cons, hk2]

/-- applyLine succeeds when some product row has the line's id. -/
lemma applyLine_isSome (ps : List Product) (item : OrderItemReq)
    (h : ∃ p ∈ ps, p.id = item.productId) : ∃ ps2, applyLine ps item = some ps2 := by
  unfold applyLine
  have hany : (ps.any (fun p => p.id == item.productId)) = true := by
    rw [List.any_eq_true]
    obtain ⟨p, hp, he⟩ := h
    exact ⟨p, hp, by simpa using he⟩
  rw [if_pos hany]
  exact ⟨_, rfl⟩

/-- The decrement loop succeeds when every line's product row exists. -/
lemma applyLines_isSome (items : List OrderItemReq) :
    ∀ ps : List Product, (∀ item ∈ items, ∃ p ∈ ps, p.id = item.productId) →
      ∃ ps2, applyLines ps items = some ps2 := by
  induction items with
  | nil =>
    intro ps _
    exact ⟨ps, rfl⟩
  | cons item rest ih =>
    intro ps h
    obtain ⟨ps1, h1⟩ := applyLine_isSome ps item (h item (List.mem_cons_self _ _))
    have hids : ∀ it ∈ rest, ∃ p ∈ ps1, p.id = it.productId := by
      intro it hit
      obtain ⟨p, hp, hpe⟩ := h it (List.mem_cons_of_mem _ hit)
      rw [applyLine_some ps item ps1 h1]
      refine ⟨if (p.id == item.productId) = true
          then { p with stockLevel := p.stockLevel - item.quantity } else p,
        List.mem_map_of_mem _ hp, ?_⟩
      by_cases hk : (p.id == item.productId) = true
      · rw [if_pos hk]
        exact hpe
      · rw [if_neg hk]
        exact hpe
    obtain ⟨ps2, h2⟩ := ih ps1 hids
    refine ⟨ps2, ?_⟩
    unfold applyLines
    rw [h1]
    exact h2

/-- The price/total pass succeeds when every line's product was
fetched. -/
lemma buildItems_isSome (products : List Product) :
    ∀ items : List OrderItemReq,
      (∀ item ∈ items, ∃ p ∈ products, p.id = item.productId) →
      ∃ r, buildItems products items = some r := by
  intro items
  induction items with
  | nil =>
    intro _
    exact ⟨([], 0), rfl⟩
  | cons item rest ih =>
    intro h
    obtain ⟨p, hp, hpe⟩ := h item (List.mem_cons_self _ _)
    have hf : (products.find? (fun x => x.id == item.productId)).isSome = true :=
      List.find?_isSome.mpr ⟨p, hp, by simpa using hpe⟩
    obtain ⟨q, hq⟩ := Option.isSome_iff_exists.mp hf
    obtain ⟨r, hr⟩ := ih (fun it hit => h it (List.mem_cons_of_mem _ hit))
    obtain ⟨ds, t⟩ := r
    refine ⟨({ productId := item.productId, quantity := item.quantity,
               priceAtTime := q.price } :: ds, q.price * item.quantity + t), ?_⟩
    unfold buildItems
    rw [hq, hr]

/-- In a product table with unique ids, find?-by-id of a member returns
that member. -/
lemma find?_products_eq_of_mem :
    ∀ (ps : List Product), ((ps.map (fun p => p.id)).Nodup) →
      ∀ p : Product, p ∈ ps → ps.find? (fun x => x.id == p.id) = some p := by
  intro ps
  induction ps with
  | nil =>
    intro _ p hp
    simp at hp
  | cons a rest ih =>
    intro hnd p hp
    simp only [List.map_cons, List.nodup_cons] at hnd
    rcases List.mem_cons.mp hp with rfl | hp2
    · simp [List.find?_cons]
    · have ha : (a.id == p.id) = false := by
        rw [beq_eq_false_iff_ne]
        intro hc
        apply hnd.1
        rw [hc]
        exact List.mem_map_of_mem _ hp2
      simp only [List.find?_cons, ha]
      exact ih hnd.2 p hp2

/-- Projecting ids out of an id-predicated filter equals filtering the
id list. -/
lemma filter_ids_comm (ps : List Product) (f : String → Bool) :
    (ps.filter (fun p => f p.id)).map (fun p => p.id)
      = (ps.map (fun p => p.id)).filter f := by
  induction ps with
  | nil => rfl
  | cons a rest ih =>
    simp only [List.filter_cons, List.map_cons]
    by_cases h : (f a.id) = true
    · rw [if_pos h, if_pos h, List.map_cons, ih]
    · rw [if_neg h, if_neg h]
      exact ih

/-- The length check of step 1 passes when every requested id has a
matching product row (ids and rows both duplicate-free). -/
lemma filter_length_eq_of_subset (ps : List Product) (ids : List String)
    (hnd : (ps.map (fun p => p.id)).Nodup) (hids : ids.Nodup)
    (hsub : ∀ i ∈ ids, ∃ p ∈ ps, p.id = i) :
    (ps.filter (fun p => decide (p.id ∈ ids))).length = ids.length := by
  have h1 : (ps.filter (fun p => decide (p.id ∈ ids))).length
      = ((ps.map (fun p => p.id)).filter (fun s => decide (s ∈ ids))).length := by
    rw [← filter_ids_comm ps (fun s => decide (s ∈ ids)), List.length_map]
  rw [h1]
  have hsub2 : ∀ i ∈ ids, i ∈ ps.map (fun p => p.id) := by
    intro i hi
    obtain ⟨p, hp, he⟩ := hsub i hi
    rw [← he]
    exact List.mem_map_of_mem _ hp
  have hfn : ((ps.map (fun p => p.id)).filter (fun s => decide (s ∈ ids))).Nodup :=
    hnd.filter _
  rw [← List.toFinset_card_of_nodup hfn, ← List.toFinset_card_of_nodup hids]
  congr 1
  ext s
  simp only [List.mem_toFinset, List.mem_filter, decide_eq_true_eq]
  exact ⟨fun h => h.2, fun h => ⟨hsub2 s h, h⟩⟩

/-- The length check of step 1 fails when some requested id has no
matching product row. -/
lemma filter_length_ne_of_missing (ps : List Product) (ids : List String)
    (hnd : (ps.map (fun p => p.id)).Nodup) (hids : ids.Nodup)
    (m : String) (hm : m ∈ ids) (hmiss : ∀ p ∈ ps, p.id ≠ m) :
    (ps.filter (fun p => decide (p.id ∈ ids))).length ≠ ids.length := by
  have h1 : (ps.filter (fun p => decide (p.id ∈ ids))).length
      = ((ps.map (fun p => p.id)).filter (fun s => decide (s ∈ ids))).length := by
    rw [← filter_ids_comm ps (fun s => decide (s ∈ ids)), List.length_map]
  rw [h1]
  have hfn : ((ps.map (fun p => p.id)).filter (fun s => decide (s ∈ ids))).Nodup :=
    hnd.filter _
  have hss : ((ps.map (fun p => p.id)).filter (fun s => decide (s ∈ ids))).toFinset
      ⊂ ids.toFinset := by
    constructor
    · intro s hs
      simp only [List.mem_toFinset, List.mem_filter, decide_eq_true_eq] at hs
      simp only [List.mem_toFinset]
      exact hs.2
    · intro hcon
      have hmf := hcon (List.mem_toFinset.mpr hm)
      simp only [List.mem_toFinset, List.mem_filter, List.mem_map] at hmf
      obtain ⟨⟨p, hp, hpe⟩, -⟩ := hmf
      exact hmiss p hp hpe
  have hlt := Finset.card_lt_card hss
  rw [List.toFinset_card_of_nodup hfn, List.toFinset_card_of_nodup hids] at hlt
  exact Nat.ne_of_lt hlt

/-- C6 (counterexample): the 404 body is the fixed string "One or more
products not found" — two requests missing different product ids
("missing-1" vs "missing-2") receive literally identical responses, so
the response does not report which requested ids had no matching
product. -/
theorem createOrder_notFound_reports_no_ids :
    (createOrder demoState "u1"
        { items := [{ productId := "missing-1", quantity := 1 }], status := none }).1
      = CreateOrderRes.notFound "One or more products not found" ∧
    (createOrder demoState "u1"
        { items := [{ productId := "missing-2", quantity := 1 }], status := none }).1
      = CreateOrderRes.notFound "One or more products not found" ∧
    (createOrder demoState "u1"
        { items := [{ productId := "missing-1", quantity := 1 }], status := none }).1
      = (createOrder demoState "u1"
          { items := [{ productId := "missing-2", quantity := 1 }], status := none }).1 := by
  decide

/-- C6 (amended): a valid order request referencing at least one product
id with no matching row fails with the 404 response carrying the fixed
message "One or more products not found" (it does not identify the
missing ids), and the state is completely unchanged — no order, items,
adjustments or stock change. -/
theorem createOrder_missing_product_aborts (st : State) (userId : String)
    (req : CreateOrderReq)
    (hwf : (st.products.map (fun p => p.id)).Nodup)
    (hvalid : validOrderReq req = true)
    (hmiss : ∃ item ∈ req.items, ∀ p ∈ st.products, p.id ≠ item.productId) :
    createOrder st userId req
      = (CreateOrderRes.notFound "One or more products not found", st) := by
  obtain ⟨item, hitem, hnone⟩ := hmiss
  have hv : ¬((!validOrderReq req) = true) := by
    rw [hvalid]
    simp
  have hne := filter_length_ne_of_missing st.products
    ((req.items.map (fun i => i.productId)).dedup) hwf
    (List.nodup_dedup _) item.productId
    (List.mem_dedup.mpr (List.mem_map_of_mem _ hitem))
    hnone
  unfold createOrder
  rw [if_neg hv]
  simp only []
  rw [if_pos hne]

/-- Closed instance of createOrder_missing_product_aborts: requesting
unknown product p9 against the demo state returns the generic 404 and
leaves the state untouched. -/
theorem createOrder_missing_product_aborts_witness :
    createOrder demoState "u1"
        { items := [{ productId := "p9", quantity := 1 }], status := none }
      = (CreateOrderRes.notFound "One or more products not found", demoState) :=
  createOrder_missing_product_aborts demoState "u1"
    { items := [{ productId := "p9", quantity := 1 }], status := none }
    (by decide) (by decide)
    ⟨{ productId := "p9", quantity := 1 }, by decide, by decide⟩

/-- C3: a valid, fully-resolvable order request in which some product's
aggregated requested quantity exceeds its stock is rejected with a 400
InsufficientStock response reporting a genuinely violating product's
name, its available stockLevel and its aggregated requested quantity,
and the state is completely unchanged. -/
theorem createOrder_insufficient_stock_aborts (st : State) (userId : String)
    (req : CreateOrderReq)
    (hwf : (st.products.map (fun p => p.id)).Nodup)
    (hvalid : validOrderReq req = true)
    (hex : ∀ item ∈ req.items, ∃ p ∈ st.products, p.id = item.productId)
    (hviol : ∃ p ∈ st.products, p.id ∈ req.items.map (fun i => i.productId) ∧
        p.stockLevel < sumQty p.id req.items) :
    ∃ p ∈ st.products, p.id ∈ req.items.map (fun i => i.productId) ∧
      p.stockLevel < sumQty p.id req.items ∧
      createOrder st userId req
        = (CreateOrderRes.insufficientStock p.name p.stockLevel (sumQty p.id req.items), st) ∧
      CreateOrderRes.statusCode (createOrder st userId req).1 = 400 := by
  have hv : ¬((!validOrderReq req) = true) := by
    rw [hvalid]
    simp
  have hsub : ∀ i ∈ (req.items.map (fun i => i.productId)).dedup,
      ∃ p ∈ st.products, p.id = i := by
    intro i hi
    rw [List.mem_dedup] at hi
    obtain ⟨it, hit, rfl⟩ := List.mem_map.mp hi
    exact hex it hit
  have hlen := filter_length_eq_of_subset st.products
    ((req.items.map (fun i => i.productId)).dedup) hwf (List.nodup_dedup _) hsub
  have hnotne : ¬((st.products.filter (fun p =>
      decide (p.id ∈ (req.items.map (fun i => i.productId)).dedup))).length
        ≠ (req.items.map (fun i => i.productId)).dedup.length) :=
    fun hc => hc hlen
  have hndf : ((st.products.filter (fun p =>
      decide (p.id ∈ (req.items.map (fun i => i.productId)).dedup))).map
        (fun p => p.id)).Nodup := by
    rw [filter_ids_comm st.products
      (fun s => decide (s ∈ (req.items.map (fun i => i.productId)).dedup))]
    exact hwf.filter _
  have hmemf : ∀ p ∈ st.products, p.id ∈ req.items.map (fun i => i.productId) →
      p ∈ st.products.filter (fun p =>
        decide (p.id ∈ (req.items.map (fun i => i.productId)).dedup)) := by
    intro p hp hpid
    rw [List.mem_filter]
    refine ⟨hp, ?_⟩
    simpa [List.mem_dedup] using hpid
  cases hff : findFirstInsufficient
      (st.products.filter (fun p =>
        decide (p.id ∈ (req.items.map (fun i => i.productId)).dedup)))
      (productQuantities req.items) with
  | none =>
    exfalso
    obtain ⟨p, hp, hpidmem, hlt⟩ := hviol
    have hentry := entry_mem_productQuantities req.items p.id hpidmem
    have hfindp := find?_products_eq_of_mem _ hndf p (hmemf p hp hpidmem)
    exact findFirstInsufficient_none _ _ hff p.id (sumQty p.id req.items) hentry p hfindp hlt
  | some tr =>
    obtain ⟨nm, avail, reqd⟩ := tr
    obtain ⟨pid1, p1, hm1, hf1, hn, ha, hlt1⟩ :=
      findFirstInsufficient_some _ _ nm avail reqd hff
    have hp1id : p1.id = pid1 := by
      simpa using @List.find?_some Product (fun x => x.id == pid1) p1 _ hf1
    have hp1mem : p1 ∈ st.products := List.mem_of_mem_filter (List.mem_of_find?_eq_some hf1)
    have hreqd : reqd = sumQty pid1 req.items :=
      eq_sumQty_of_mem_productQuantities _ _ _ hm1
    have hpidmem : pid1 ∈ req.items.map (fun i => i.productId) := by
      rw [← mem_keys_productQuantities]
      exact List.mem_map_of_mem (fun e => e.1) hm1
    have hmain : createOrder st userId req
        = (CreateOrderRes.insufficientStock p1.name p1.stockLevel (sumQty p1.id req.items), st) := by
      rw [← hn, ← ha, hp1id, ← hreqd]
      unfold createOrder
      rw [if_neg hv]
      simp only []
      rw [if_neg hnotne, hff]
    refine ⟨p1, hp1mem, ?_, ?_, hmain, ?_⟩
    · rw [hp1id]
      exact hpidmem
    · rw [hp1id, ← hreqd]
      exact hlt1
    · rw [hmain]
      rfl

/-- Closed instance of createOrder_insufficient_stock_aborts: requesting
11 units of p1 with stockLevel 10 is rejected with available=10,
requested=11 and no state change. -/
theorem createOrder_insufficient_stock_aborts_witness :
    ∃ p ∈ demoState.products,
      p.id ∈ ([{ productId := "p1", quantity := 11 }] : List OrderItemReq).map
        (fun i => i.productId) ∧
      p.stockLevel < sumQty p.id [{ productId := "p1", quantity := 11 }] ∧
      createOrder demoState "u1"
          { items := [{ productId := "p1", quantity := 11 }], status := none }
        = (CreateOrderRes.insufficientStock p.name p.stockLevel
            (sumQty p.id [{ productId := "p1", quantity := 11 }]), demoState) ∧
      CreateOrderRes.statusCode (createOrder demoState "u1"
          { items := [{ productId := "p1", quantity := 11 }], status := none }).1 = 400 :=
  createOrder_insufficient_stock_aborts demoState "u1"
    { items := [{ productId := "p1", quantity := 11 }], status := none }
    (by decide) (by decide) (by decide) (by decide)

/-- C10: the stock check is strict (<), so a valid, fully-resolvable
order whose aggregated requested quantity for each requested product
exactly equals that product's current stockLevel succeeds, and each such
product's committed stockLevel is exactly 0 — ordering the last units is
permitted. -/
theorem createOrder_exact_stock_succeeds (st : State) (userId : String)
    (req : CreateOrderReq)
    (hwf : (st.products.map (fun p => p.id)).Nodup)
    (hvalid : validOrderReq req = true)
    (hex : ∀ item ∈ req.items, ∃ p ∈ st.products, p.id = item.productId)
    (hexact : ∀ p ∈ st.products, p.id ∈ req.items.map (fun i => i.productId) →
        sumQty p.id req.items = p.stockLevel) :
    (∃ order ds st2, createOrder st userId req
      = (CreateOrderRes.created order ds, st2)) ∧
    ∀ p ∈ st.products, p.id ∈ req.items.map (fun i => i.productId) →
      ({ p with stockLevel := 0 } : Product) ∈ (createOrder st userId req).2.products := by
  have hv : ¬((!validOrderReq req) = true) := by
    rw [hvalid]
    simp
  have hsub : ∀ i ∈ (req.items.map (fun i => i.productId)).dedup,
      ∃ p ∈ st.products, p.id = i := by
    intro i hi
    rw [List.mem_dedup] at hi
    obtain ⟨it, hit, rfl⟩ := List.mem_map.mp hi
    exact hex it hit
  have hlen := filter_length_eq_of_subset st.products
    ((req.items.map (fun i => i.productId)).dedup) hwf (List.nodup_dedup _) hsub
  have hnotne : ¬((st.products.filter (fun p =>
      decide (p.id ∈ (req.items.map (fun i => i.productId)).dedup))).length
        ≠ (req.items.map (fun i => i.productId)).dedup.length) :=
    fun hc => hc hlen
  have hndf : ((st.products.filter (fun p =>
      decide (p.id ∈ (req.items.map (fun i => i.productId)).dedup))).map
        (fun p => p.id)).Nodup := by
    rw [filter_ids_comm st.products
      (fun s => decide (s ∈ (req.items.map (fun i => i.productId)).dedup))]
    exact hwf.filter _
  have hmemf : ∀ p ∈ st.products, p.id ∈ req.items.map (fun i => i.productId) →
      p ∈ st.products.filter (fun p =>
        decide (p.id ∈ (req.items.map (fun i => i.productId)).dedup)) := by
    intro p hp hpid
    rw [List.mem_filter]
    refine ⟨hp, ?_⟩
    simpa [List.mem_dedup] using hpid
  have hffn : findFirstInsufficient
      (st.products.filter (fun p =>
        decide (p.id ∈ (req.items.map (fun i => i.productId)).dedup)))
      (productQuantities req.items) = none := by
    cases hff : findFirstInsufficient
        (st.products.filter (fun p =>
          decide (p.id ∈ (req.items.map (fun i => i.productId)).dedup)))
        (productQuantities req.items) with
    | none => rfl
    | some tr =>
      exfalso
      obtain ⟨nm, avail, reqd⟩ := tr
      obtain ⟨pid1, p1, hm1, hf1, hn, ha, hlt1⟩ :=
        findFirstInsufficient_some _ _ nm avail reqd hff
      have hp1id : p1.id = pid1 := by
        simpa using @List.find?_some Product (fun x => x.id == pid1) p1 _ hf1
      have hp1mem : p1 ∈ st.products :=
        List.mem_of_mem_filter (List.mem_of_find?_eq_some hf1)
      have hreqd : reqd = sumQty pid1 req.items :=
        eq_sumQty_of_mem_productQuantities _ _ _ hm1
      have hpidmem : pid1 ∈ req.items.map (fun i => i.productId) := by
        rw [← mem_keys_productQuantities]
        exact List.mem_map_of_mem (fun e => e.1) hm1
      have hstock := hexact p1 hp1mem (by rw [hp1id]; exact hpidmem)
      rw [hreqd, ← hp1id, hstock] at hlt1
      exact lt_irrefl _ hlt1
  have hexf : ∀ item ∈ req.items,
      ∃ p ∈ st.products.filter (fun p =>
        decide (p.id ∈ (req.items.map (fun i => i.productId)).dedup)),
        p.id = item.productId := by
    intro item hit
    obtain ⟨p, hp, hpe⟩ := hex item hit
    refine ⟨p, hmemf p hp ?_, hpe⟩
    rw [hpe]
    exact List.mem_map_of_mem _ hit
  obtain ⟨⟨ds, t⟩, hbuild⟩ := buildItems_isSome _ req.items hexf
  obtain ⟨ps2, happ⟩ := applyLines_isSome req.items st.products hex
  have hmain : createOrder st userId req
      = (CreateOrderRes.created
          (Order.mk st.nextOrderId userId (req.status.getD OrderStatus.PENDING) t) ds,
         State.mk ps2
           (st.orders ++ [Order.mk st.nextOrderId userId (req.status.getD OrderStatus.PENDING) t])
           (st.orderItems ++ ds.map (fun d =>
             OrderItemRow.mk st.nextOrderId d.productId d.quantity d.priceAtTime))
           (st.adjustments ++ orderAdjustments req.items userId st.nextOrderId)
           (st.nextOrderId + 1)) := by
    unfold createOrder
    rw [if_neg hv]
    simp only []
    rw [if_neg hnotne, hffn, hbuild, happ]
  constructor
  · exact ⟨_, _, _, hmain⟩
  · intro p hp hpid
    rw [hmain]
    simp only []
    rw [applyLines_eq req.items st.products ps2 happ]
    have h0 : p.stockLevel - sumQty p.id req.items = 0 := by
      rw [hexact p hp hpid]
      exact sub_self _
    have hrec : ({ p with stockLevel := 0 } : Product)
        = { p with stockLevel := p.stockLevel - sumQty p.id req.items } := by
      rw [h0]
    rw [hrec]
    exact List.mem_map_of_mem _ hp

/-- Closed instance of createOrder_exact_stock_succeeds: ordering exactly
the 10 units in stock succeeds and leaves p1 at stockLevel 0. -/
theorem createOrder_exact_stock_succeeds_witness :
    (∃ order ds st2, createOrder demoState "u1"
        { items := [{ productId := "p1", quantity := 10 }], status := none }
      = (CreateOrderRes.created order ds, st2)) ∧
    ∀ p ∈ demoState.products,
      p.id ∈ ([{ productId := "p1", quantity := 10 }] : List OrderItemReq).map
        (fun i => i.productId) →
      ({ p with stockLevel := 0 } : Product) ∈ (createOrder demoState "u1"
        { items := [{ productId := "p1", quantity := 10 }], status := none }).2.products :=
  createOrder_exact_stock_succeeds demoState "u1"
    { items := [{ productId := "p1", quantity := 10 }], status := none }
    (by decide) (by decide) (by decide) (by decide)

/-- Committed products of createOrder: either an early return left the
state untouched, or the transaction ran the decrement loop after the
aggregated stock check reported no violation. -/
lemma createOrder_products_cases (st : State) (userId : String) (req : CreateOrderReq)
    (res : CreateOrderRes) (st2 : State)
    (h : createOrder st userId req = (res, st2)) :
    st2.products = st.products ∨
    ∃ ps2, applyLines st.products req.items = some ps2 ∧ st2.products = ps2 ∧
      findFirstInsufficient
        (st.products.filter (fun p =>
          decide (p.id ∈ (req.items.map (fun i => i.productId)).dedup)))
        (productQuantities req.items) = none := by
  unfold createOrder at h
  simp only [] at h
  repeat' split at h
  all_goals try (left; simp only [Prod.mk.injEq] at h; rw [← h.2]; done)
  simp only [Prod.mk.injEq] at h
  right
  refine ⟨_, by assumption, ?_, by assumption⟩
  rw [← h.2]

/-- Mapping an id-preserving row update does not change the id column. -/
lemma ids_of_row_update (ps : List Product) (g : Product → Product)
    (hg : ∀ p, (g p).id = p.id) :
    (ps.map g).map (fun p => p.id) = ps.map (fun p => p.id) := by
  rw [List.map_map]
  exact List.map_congr_left (fun p _ => hg p)

/-- One createOrder call preserves id uniqueness and stock
non-negativity of the product table. -/
lemma createOrder_preserves_inv (st : State) (userId : String) (req : CreateOrderReq)
    (hwf : (st.products.map (fun p => p.id)).Nodup)
    (h0 : ∀ p ∈ st.products, 0 ≤ p.stockLevel) :
    (((createOrder st userId req).2.products).map (fun p => p.id)).Nodup ∧
    ∀ p ∈ (createOrder st userId req).2.products, 0 ≤ p.stockLevel := by
  rcases createOrder_products_cases st userId req
      (createOrder st userId req).1 (createOrder st userId req).2 Prod.mk.eta.symm with
    heqp | ⟨ps2, happ, heqp, hffn⟩
  · rw [heqp]
    exact ⟨hwf, h0⟩
  · rw [heqp, applyLines_eq req.items st.products ps2 happ]
    constructor
    · rw [ids_of_row_update st.products
        (fun p => { p with stockLevel := p.stockLevel - sumQty p.id req.items })
        (fun p => rfl)]
      exact hwf
    · intro p2 hp2
      obtain ⟨p, hp, rfl⟩ := List.mem_map.mp hp2
      show 0 ≤ p.stockLevel - sumQty p.id req.items
      by_cases hpid : p.id ∈ req.items.map (fun i => i.productId)
      · have hndf : ((st.products.filter (fun p =>
            decide (p.id ∈ (req.items.map (fun i => i.productId)).dedup))).map
              (fun p => p.id)).Nodup := by
          rw [filter_ids_comm st.products
            (fun s => decide (s ∈ (req.items.map (fun i => i.productId)).dedup))]
          exact hwf.filter _
        have hmemf : p ∈ st.products.filter (fun p =>
            decide (p.id ∈ (req.items.map (fun i => i.productId)).dedup)) := by
          rw [List.mem_filter]
          refine ⟨hp, ?_⟩
          simpa [List.mem_dedup] using hpid
        have hentry := entry_mem_productQuantities req.items p.id hpid
        have hfind := find?_products_eq_of_mem _ hndf p hmemf
        have hok := findFirstInsufficient_none _ _ hffn p.id
          (sumQty p.id req.items) hentry p hfind
        omega
      · rw [sumQty_eq_zero_of_not_mem p.id req.items hpid]
        have := h0 p hp
        omega

/-- One createAdjustment call preserves id uniqueness and stock
non-negativity of the product table. -/
lemma createAdjustment_preserves_inv (st : State) (userId : String) (req : AdjustmentReq)
    (hwf : (st.products.map (fun p => p.id)).Nodup)
    (h0 : ∀ p ∈ st.products, 0 ≤ p.stockLevel) :
    (((createAdjustment st userId req).2.products).map (fun p => p.id)).Nodup ∧
    ∀ p ∈ (createAdjustment st userId req).2.products, 0 ≤ p.stockLevel := by
  unfold createAdjustment
  cases hf : st.products.find? (fun p => p.id == req.productId) with
  | none =>
    simp only [hf]
    exact ⟨hwf, h0⟩
  | some product =>
    simp only [hf]
    by_cases h1 : req.type = AdjType.IN ∧ req.quantity ≤ 0
    · rw [if_pos h1]
      exact ⟨hwf, h0⟩
    · rw [if_neg h1]
      by_cases h2 : req.type = AdjType.OUT ∧ 0 ≤ req.quantity
      · rw [if_pos h2]
        exact ⟨hwf, h0⟩
      · rw [if_neg h2]
        by_cases h3 : product.stockLevel + req.quantity < 0
        · rw [if_pos h3]
          exact ⟨hwf, h0⟩
        · rw [if_neg h3]
          constructor
          · rw [ids_of_row_update st.products _ ?hg]
            · exact hwf
            case hg =>
              intro p
              by_cases hk : (p.id == req.productId) = true
              · rw [if_pos hk]
              · rw [if_neg hk]
          · intro p2 hp2
            obtain ⟨p, hp, rfl⟩ := List.mem_map.mp hp2
            by_cases hk : (p.id == req.productId) = true
            · rw [if_pos hk]
              show 0 ≤ product.stockLevel + req.quantity
              omega
            · rw [if_neg hk]
              exact h0 p hp

/-- Sequential execution of any operations preserves id uniqueness and
stock non-negativity. -/
lemma runOps_inv (ops : List Op) :
    ∀ st : State, (st.products.map (fun p => p.id)).Nodup →
      (∀ p ∈ st.products, 0 ≤ p.stockLevel) →
      (((runOps st ops).products).map (fun p => p.id)).Nodup ∧
      ∀ p ∈ (runOps st ops).products, 0 ≤ p.stockLevel := by
  induction ops with
  | nil =>
    intro st hwf h0
    exact ⟨hwf, h0⟩
  | cons op rest ih =>
    intro st hwf h0
    have hstep : (((runOp st op).products).map (fun p => p.id)).Nodup ∧
        ∀ p ∈ (runOp st op).products, 0 ≤ p.stockLevel := by
      cases op with
      | placeOrder uid req => exact createOrder_preserves_inv st uid req hwf h0
      | adjust uid req => exact createAdjustment_preserves_inv st uid req hwf h0
    have hrw : runOps st (op :: rest) = runOps (runOp st op) rest := by
      unfold runOps
      rw [List.foldl_cons]
    rw [hrw]
    exact ih (runOp st op) hstep.1 hstep.2

/-- C2: starting from any state with unique product ids and all stock
levels ≥ 0, every committed state reached by any sequential mix of
createOrder and createAdjustment calls keeps every product's stockLevel
≥ 0 (the sequence is arbitrary, so this covers every intermediate
committed state as a prefix). -/
theorem stockLevel_never_negative (st : State) (ops : List Op)
    (hwf : (st.products.map (fun p => p.id)).Nodup)
    (h0 : ∀ p ∈ st.products, 0 ≤ p.stockLevel) :
    stocksNonneg (runOps st ops) :=
  (runOps_inv ops st hwf h0).2

/-- Closed instance of stockLevel_never_negative: a successful order, a
manual OUT adjustment, a rejected oversized order and a rejected
oversized adjustment leave all stock levels non-negative. -/
theorem stockLevel_never_negative_witness :
    stocksNonneg (runOps demoState
      [Op.placeOrder "u1" demoOrderReq,
       Op.adjust "u1" { productId := "p1", quantity := -2, type := AdjType.OUT, reason := none },
       Op.placeOrder "u1" { items := [{ productId := "p1", quantity := 50 }], status := none },
       Op.adjust "u1" { productId := "p1", quantity := -50, type := AdjType.OUT, reason := none }]) :=
  stockLevel_never_negative demoState
    [Op.placeOrder "u1" demoOrderReq,
     Op.adjust "u1" { productId := "p1", quantity := -2, type := AdjType.OUT, reason := none },
     Op.placeOrder "u1" { items := [{ productId := "p1", quantity := 50 }], status := none },
     Op.adjust "u1" { productId := "p1", quantity := -50, type := AdjType.OUT, reason := none }]
    (by decide) (by decide)
